import Mathlib

/-!
Verification of the identity-resolution and data-aggregation pipeline of
`bot/steam_bot_api.py`.

The Python functions perform HTTP calls via `requests`; here every outbound
call is modelled by an explicit response environment.  A response is either a
transport-level exception (`requests.get`/`post` raising) or a completed
response carrying an HTTP status code and an optional parsed JSON body
(`none` models a body on which `.json()` raises).  `raise_for_status` raises
exactly for statuses in `[400, 600)`.  Python functions that can let an
exception escape to their caller are embedded with an `Except Unit` result;
functions whose body is entirely guarded by `try/except` are total.
-/

namespace SteamBot

/-- Result of one outbound HTTP request: `exn` models the transport layer
raising (connection error, timeout); `ok status body` a completed response,
where `body = none` models a payload on which `.json()` raises. -/
inductive HttpResp (α : Type) where
  | exn : HttpResp α
  | ok (status : Nat) (body : Option α) : HttpResp α
deriving DecidableEq

/-- Status range on which `requests.Response.raise_for_status` raises. -/
def httpError (st : Nat) : Prop := 400 ≤ st ∧ st < 600

instance (st : Nat) : Decidable (httpError st) :=
  inferInstanceAs (Decidable (_ ∧ _))

/-- Parsed body of `ResolveVanityURL`: `data["response"]["success"]` and
`data["response"]["steamid"]`; a `none` field models the key being absent,
so that indexing it raises `KeyError`. -/
structure VanityBody where
  success : Option Int
  steamid : Option String
deriving DecidableEq

/-- Environment of `resolve_steam_id`: the response to the single vanity
resolution request. -/
structure ResolveEnv where
  vanity : HttpResp VanityBody

/-- Python `str.strip()` (whitespace trimmed from both ends). -/
def pyStrip (s : String) : String :=
  String.mk (((s.data.dropWhile Char.isWhitespace).reverse.dropWhile
    Char.isWhitespace).reverse)

/-- The numeric-shortcut condition of `resolve_steam_id`:
`user_input.isdigit() and len(user_input) >= 15` after stripping
(`isdigit` is false on the empty string). -/
def isNumericId (s : String) : Prop :=
  pyStrip s ≠ "" ∧ (pyStrip s).data.all Char.isDigit = true ∧
    15 ≤ (pyStrip s).length

instance (s : String) : Decidable (isNumericId s) :=
  inferInstanceAs (Decidable (_ ∧ _ ∧ _))

/-- Embedding of `resolve_steam_id`.  Besides the resolved identifier it
returns the number of outbound network calls issued (0 on the numeric
shortcut, 1 otherwise).  The vanity path is wrapped in `try/except`
in the source, so it never raises: each failure falls through to `None`. -/
def resolve_steam_id (env : ResolveEnv) (s : String) : Option String × Nat :=
  let user_input := pyStrip s
  if isNumericId s then (some user_input, 0)
  else
    let res : Option String :=
      match env.vanity with
      | .exn => none
      | .ok st body =>
        if httpError st then none
        else
          match body with
          | none => none
          | some data =>
            match data.success with
            | none => none
            | some sc => if sc = 1 then data.steamid else none
    (res, 1)

/-- Failure conditions of the vanity lookup, written from the (amended)
claim: transport error, 4xx/5xx status, malformed response (unparsable
body or missing success field), or an explicit not-resolved indicator. -/
def vanityFails : HttpResp VanityBody → Bool
  | .exn => true
  | .ok st body =>
    if httpError st then true
    else
      match body with
      | none => true
      | some data =>
        match data.success with
        | none => true
        | some sc => decide (sc ≠ 1)

/-- C6: an input whose stripped form is all digits and at least 15 characters
long resolves to that stripped string itself, with no network call issued. -/
theorem c6_numeric_shortcut (env : ResolveEnv) (s : String)
    (h : isNumericId s) :
    resolve_steam_id env s = (some (pyStrip s), 0) := by
  unfold resolve_steam_id
  rw [if_pos h]

/-- C6 witness: a concrete 17-digit identifier takes the shortcut even when
the network environment would fail every request. -/
theorem c6_witness :
    isNumericId "76561198000000001" ∧
      resolve_steam_id ⟨HttpResp.exn⟩ "76561198000000001" =
        (some "76561198000000001", 0) :=
  ⟨by decide, c6_numeric_shortcut ⟨HttpResp.exn⟩ "76561198000000001" (by decide)⟩

/-- C7 (amended): on the non-numeric path exactly one vanity request is
issued, and every transport error, 4xx/5xx status, malformed response or
not-resolved indicator yields `none`; totality of `resolve_steam_id`
reflects the catch-all `except` around the whole vanity path. -/
theorem c7_vanity_failures (env : ResolveEnv) (s : String)
    (h : ¬ isNumericId s) :
    (resolve_steam_id env s).2 = 1 ∧
      (vanityFails env.vanity = true → (resolve_steam_id env s).1 = none) := by
  constructor
  · unfold resolve_steam_id
    rw [if_neg h]
  · intro hf
    unfold resolve_steam_id
    rw [if_neg h]
    cases hv : env.vanity with
    | exn => simp
    | ok st body =>
      rw [hv] at hf
      simp only [vanityFails] at hf
      by_cases hst : httpError st
      · simp [hst]
      · simp only [if_neg hst] at hf
        cases body with
        | none => simp [hst]
        | some data =>
          cases hsc : data.success with
          | none => simp [hst, hsc]
          | some sc =>
            simp only [hsc, decide_eq_true_eq] at hf
            simp [hst, hsc, hf]

/-- C7 witness: a concrete vanity name under a transport error resolves to
`none` after exactly one request. -/
theorem c7_witness :
    ¬ isNumericId "gabe" ∧
      resolve_steam_id ⟨HttpResp.exn⟩ "gabe" = (none, 1) := by
  refine ⟨by decide, ?_⟩
  have h := c7_vanity_failures ⟨HttpResp.exn⟩ "gabe" (by decide)
  have h1 := h.1
  have h2 := h.2 rfl
  exact Prod.ext h2 h1

/-- C7 counterexample: the claim says every non-2xx status yields NotFound,
but `raise_for_status` only raises on 4xx/5xx, so a 301 response whose body
parses with a success indicator is returned as a resolved identifier. -/
theorem c7_counterexample :
    resolve_steam_id ⟨HttpResp.ok 301 (some ⟨some 1, some "76561197960287930"⟩)⟩
        "gabe" = (some "76561197960287930", 1) ∧
      ¬ (200 ≤ 301 ∧ 301 < 300) := by
  exact ⟨by decide, by decide⟩

/-- A player record as returned by `GetPlayerSummaries`; only the fields the
pipeline reads are modelled, each optional since the code accesses them with
`.get`. -/
structure Player where
  personaname : Option String
  realname : Option String
  loccountrycode : Option String
  timecreated : Option Nat
deriving DecidableEq

/-- One entry of `GetFriendList`: the code indexes `f["steamid"]`, so an
absent key (`none`) raises `KeyError` inside the guarded block. -/
structure FriendRel where
  steamid : Option String
deriving DecidableEq

/-- One entry of `GetOwnedGames`: the code indexes `g["name"]` (required) and
reads `g.get("playtime_forever", 0)` (optional, minutes). -/
structure Game where
  name : String
  playtime_forever : Option Nat
deriving DecidableEq

/-- Sort key of the games sort: `g.get("playtime_forever", 0)`. -/
def gameKey (g : Game) : Nat := g.playtime_forever.getD 0

/-- Descending order by a numeric key; `sorted(key=..., reverse=True)` in the
source is the stable sort in this order. -/
def byKeyDesc (key : α → Nat) (a b : α) : Prop := key b ≤ key a

instance (key : α → Nat) : DecidableRel (byKeyDesc key) :=
  fun a b => Nat.decLe (key b) (key a)

instance (key : α → Nat) : IsTotal α (byKeyDesc key) :=
  ⟨fun a b => Nat.le_total (key b) (key a)⟩

instance (key : α → Nat) : IsTrans α (byKeyDesc key) :=
  ⟨fun _ _ _ h1 h2 => Nat.le_trans h2 h1⟩

/-- Network environment of one `fetch_steam_profile` call.  The friend
summary lookup is keyed by the identifier batch it sends, one request per
batch (`friend_ids[i:i+100]` in the source). -/
structure FetchEnv where
  profileResp : HttpResp (List Player)
  friendsResp : HttpResp (List FriendRel)
  batchResp : List String → HttpResp (List Player)
  gamesResp : HttpResp (List Game)

/-- Slices a list into consecutive chunks of at most 100 elements, as the
loop `for i in range(0, len(friend_ids), 100)` does; the first argument is
recursion fuel, always instantiated with the list length. -/
def chunksAux : Nat → List String → List (List String)
  | _, [] => []
  | 0, _ => []
  | fuel + 1, l => l.take 100 :: chunksAux fuel (l.drop 100)

/-- The batches of at most 100 identifiers the friends loop requests. -/
def chunk100 (l : List String) : List (List String) := chunksAux l.length l

/-- Embedding of the friends batch loop.  A non-200 batch response merely
skips the `extend`; a transport error or a 200 response whose body fails to
parse raises, which the surrounding `except` catches, ending the loop with
the records accumulated so far. -/
def runBatches (resp : List String → HttpResp (List Player)) :
    List (List String) → List Player
  | [] => []
  | b :: rest =>
    match resp b with
    | .exn => []
    | .ok st body =>
      if st = 200 then
        match body with
        | none => []
        | some ps => ps ++ runBatches resp rest
      else runBatches resp rest

/-- Embedding of the friends phase of `fetch_steam_profile` (lines 67-91):
fetch the friend list, extract the ids, then resolve summaries in batches;
every failure path inside the `try` degrades to the list built so far. -/
def friendsPhase (friendsResp : HttpResp (List FriendRel))
    (batchResp : List String → HttpResp (List Player)) : List Player :=
  match friendsResp with
  | .exn => []
  | .ok st body =>
    if st = 200 then
      match body with
      | none => []
      | some friends =>
        match friends.mapM FriendRel.steamid with
        | none => []
        | some friend_ids =>
          if friend_ids = [] then []
          else runBatches batchResp (chunk100 friend_ids)
    else []

/-- Embedding of the games phase (lines 94-112): on a 200 response the
returned titles are stably sorted by playtime descending and the first 10
retained; every failure degrades to an empty list. -/
def gamesPhase (gamesResp : HttpResp (List Game)) : List Game :=
  match gamesResp with
  | .exn => []
  | .ok st body =>
    if st = 200 then
      match body with
      | none => []
      | some all_games =>
        (List.insertionSort (byKeyDesc gameKey) all_games).take 10
    else []

/-- The aggregate `fetch_steam_profile` returns on success. -/
structure ProfileAggregate where
  profile : Player
  friends : List Player
  owned_games_sample : List Game
deriving DecidableEq

/-- Embedding of `fetch_steam_profile`.  The primary profile request is not
guarded by `try/except` in the source, so a transport error, or a 200
response whose body `.json()` cannot parse, propagates to the caller
(modelled by `Except.error ()`); a non-200 status or an empty player list
returns `None`. -/
def fetch_steam_profile (env : FetchEnv) : Except Unit (Option ProfileAggregate) :=
  match env.profileResp with
  | .exn => .error ()
  | .ok st body =>
    if st ≠ 200 then .ok none
    else
      match body with
      | none => .error ()
      | some players =>
        match players with
        | [] => .ok none
        | user_data :: _ =>
          .ok (some { profile := user_data
                      friends := friendsPhase env.friendsResp env.batchResp
                      owned_games_sample := gamesPhase env.gamesResp })

/-- Condition under which the primary fetch raises, from the amended claim:
transport error, or a 200 response with an unparsable body. -/
def primaryRaises : HttpResp (List Player) → Bool
  | .exn => true
  | .ok st body => decide (st = 200) && body.isNone

/-- Condition under which the aggregation reports NotFound, from the amended
claim: the primary fetch completes with a status other than 200, or with an
empty player list. -/
def primaryNotFound : HttpResp (List Player) → Bool
  | .exn => false
  | .ok st body =>
    if st ≠ 200 then true
    else
      match body with
      | some [] => true
      | _ => false

/-- C1 (amended): the aggregation returns NotFound exactly when the primary
fetch completes with a non-200 status or an empty player list; it raises
exactly when the primary fetch's transport fails or its 200 body is
unparsable; and whenever a primary player record exists, the call succeeds
with the friends and games phases silently degraded, whatever their
responses were. -/
theorem c1_primary_gate (env : FetchEnv) :
    (fetch_steam_profile env = .error () ↔ primaryRaises env.profileResp = true) ∧
    (fetch_steam_profile env = .ok none ↔ primaryNotFound env.profileResp = true) ∧
    (∀ p rest, env.profileResp = .ok 200 (some (p :: rest)) →
      fetch_steam_profile env =
        .ok (some ⟨p, friendsPhase env.friendsResp env.batchResp,
          gamesPhase env.gamesResp⟩)) := by
  unfold fetch_steam_profile
  cases hpr : env.profileResp with
  | exn => simp [primaryRaises, primaryNotFound]
  | ok st body =>
    by_cases hst : st = 200
    · subst hst
      cases body with
      | none => simp [primaryRaises, primaryNotFound]
      | some players =>
        cases players with
        | nil => simp [primaryRaises, primaryNotFound]
        | cons p rest =>
          simp only [primaryRaises, primaryNotFound]
          refine ⟨by simp, by simp, ?_⟩
          intro p' rest' heq
          simp only [HttpResp.ok.injEq, Option.some.injEq, List.cons.injEq] at heq
          obtain ⟨-, hp, hrest⟩ := heq
          simp [hp, hrest]
    · simp [primaryRaises, primaryNotFound, hst]

/-- Environment where the primary profile request itself suffers a transport
error. -/
def c1CexEnv : FetchEnv :=
  { profileResp := .exn, friendsResp := .exn,
    batchResp := fun _ => .exn, gamesResp := .exn }

/-- C1 counterexample: the claim says `fetch_steam_profile` never raises an
exception to its caller, but a transport error on the primary profile
request is not guarded by any `try/except` and propagates out. -/
theorem c1_counterexample :
    fetch_steam_profile c1CexEnv = .error () := rfl

/-- A concrete primary player record. -/
def p0 : Player := ⟨some "Alice", none, some "US", none⟩

/-- Environment whose primary fetch succeeds while friends and games fail. -/
def c1DegradeEnv : FetchEnv :=
  { profileResp := .ok 200 (some [p0]), friendsResp := .exn,
    batchResp := fun _ => .exn, gamesResp := .ok 500 none }

/-- C1 witness: with the primary profile present, failures of the friends
and games fetches degrade to empty lists and the aggregation succeeds. -/
theorem c1_witness :
    fetch_steam_profile c1DegradeEnv = .ok (some ⟨p0, [], []⟩) :=
  (c1_primary_gate c1DegradeEnv).2.2 p0 [] rfl

/-- Raising condition of a single friend-summary batch request, from the
amended claim: transport error, or a 200 response with an unparsable body. -/
def batchRaises : HttpResp (List Player) → Bool
  | .exn => true
  | .ok st body => decide (st = 200) && body.isNone

/-- Records a single completed batch response contributes: its player list
on a 200 response, nothing otherwise. -/
def batchExtract : HttpResp (List Player) → List Player
  | .exn => []
  | .ok st body =>
    if st = 200 then
      match body with
      | none => []
      | some ps => ps
    else []

theorem chunksAux_join : ∀ (fuel : Nat) (l : List String), l.length ≤ fuel →
    (chunksAux fuel l).flatten = l := by
  intro fuel
  induction fuel with
  | zero =>
    intro l hl
    have hnil : l = [] := List.length_eq_zero.mp (Nat.le_zero.mp hl)
    subst hnil
    rfl
  | succ n ih =>
    intro l hl
    cases l with
    | nil => rfl
    | cons x xs =>
      have hd : ((x :: xs).drop 100).length ≤ n := by
        simp only [List.length_drop, List.length_cons] at *
        omega
      simp only [chunksAux, List.flatten_cons, ih _ hd, List.take_append_drop]

theorem chunksAux_mem : ∀ (fuel : Nat) (l b : List String),
    b ∈ chunksAux fuel l → b.length ≤ 100 ∧ b ≠ [] := by
  intro fuel
  induction fuel with
  | zero => intro l b hb; cases l <;> simp [chunksAux] at hb
  | succ n ih =>
    intro l b hb
    cases l with
    | nil => simp [chunksAux] at hb
    | cons x xs =>
      simp only [chunksAux, List.mem_cons] at hb
      rcases hb with hb | hb
      · subst hb
        have hpos : 0 < ((x :: xs).take 100).length := by
          simp [List.length_take]
        refine ⟨by simp [List.length_take], ?_⟩
        exact List.length_pos.mp hpos
      · exact ih _ _ hb

theorem runBatches_ok (resp : List String → HttpResp (List Player)) :
    ∀ l, (∀ b ∈ l, batchRaises (resp b) = false) →
      runBatches resp l = (l.map (fun b => batchExtract (resp b))).flatten := by
  intro l
  induction l with
  | nil => intro _; rfl
  | cons b rest ih =>
    intro hall
    have hb := hall b (List.mem_cons_self _ _)
    have hrest : ∀ x ∈ rest, batchRaises (resp x) = false :=
      fun x hx => hall x (List.mem_cons_of_mem _ hx)
    simp only [runBatches, List.map_cons, List.flatten_cons]
    cases hr : resp b with
    | exn => rw [hr] at hb; simp [batchRaises] at hb
    | ok st body =>
      rw [hr] at hb
      by_cases hst : st = 200
      · subst hst
        cases body with
        | none => simp [batchRaises] at hb
        | some ps => simp [batchExtract, ih hrest]
      · simp [hst, batchExtract, ih hrest]

theorem runBatches_abort (resp : List String → HttpResp (List Player)) :
    ∀ (l1 : List (List String)) (b : List String) (l2 : List (List String)),
      (∀ x ∈ l1, batchRaises (resp x) = false) →
      batchRaises (resp b) = true →
      runBatches resp (l1 ++ b :: l2) =
        (l1.map (fun x => batchExtract (resp x))).flatten := by
  intro l1
  induction l1 with
  | nil =>
    intro b l2 _ hb
    cases hr : resp b with
    | exn => simp [runBatches, hr]
    | ok st body =>
      rw [hr] at hb
      simp only [batchRaises, Bool.and_eq_true, decide_eq_true_eq,
        Option.isNone_iff_eq_none] at hb
      obtain ⟨hst, hbody⟩ := hb
      subst hst
      subst hbody
      simp [runBatches, hr]
  | cons x l1' ih =>
    intro b l2 hall hb
    have hx := hall x (List.mem_cons_self _ _)
    have hrest : ∀ y ∈ l1', batchRaises (resp y) = false :=
      fun y hy => hall y (List.mem_cons_of_mem _ hy)
    simp only [List.cons_append, runBatches, List.map_cons, List.flatten_cons]
    cases hr : resp x with
    | exn => rw [hr] at hx; simp [batchRaises] at hx
    | ok st body =>
      rw [hr] at hx
      by_cases hst : st = 200
      · subst hst
        cases body with
        | none => simp [batchRaises] at hx
        | some ps => simp [batchExtract, ih b l2 hrest hb]
      · simp [hst, batchExtract, ih b l2 hrest hb]

theorem friendsPhase_ok (frs : List FriendRel)
    (resp : List String → HttpResp (List Player)) :
    friendsPhase (HttpResp.ok 200 (some frs)) resp =
      match frs.mapM FriendRel.steamid with
      | none => []
      | some friend_ids =>
        if friend_ids = [] then []
        else runBatches resp (chunk100 friend_ids) := rfl

/-- C2 (amended): friend summaries are requested in batches of at most 100
identifiers, one request per batch, in order; when no batch raises, the
results are the per-batch records concatenated in batch order, a non-200
batch contributing zero records without blocking the rest; a raising batch
(transport error or unparsable 200 body) ends the loop, keeping the records
of the preceding batches and dropping all later batches. -/
theorem c2_batching (ids : List String)
    (resp : List String → HttpResp (List Player)) :
    (chunk100 ids).flatten = ids ∧
    (∀ b ∈ chunk100 ids, b.length ≤ 100 ∧ b ≠ []) ∧
    ((∀ b ∈ chunk100 ids, batchRaises (resp b) = false) →
      runBatches resp (chunk100 ids) =
        ((chunk100 ids).map (fun b => batchExtract (resp b))).flatten) ∧
    (∀ l1 b l2, chunk100 ids = l1 ++ b :: l2 →
      (∀ x ∈ l1, batchRaises (resp x) = false) →
      batchRaises (resp b) = true →
      runBatches resp (chunk100 ids) =
        (l1.map (fun x => batchExtract (resp x))).flatten) ∧
    (∀ frs : List FriendRel, frs.mapM FriendRel.steamid = some ids →
      ids ≠ [] →
      friendsPhase (HttpResp.ok 200 (some frs)) resp =
        runBatches resp (chunk100 ids)) := by
  refine ⟨chunksAux_join _ _ (Nat.le_refl _),
    fun b hb => chunksAux_mem _ _ _ hb, runBatches_ok resp _, ?_, ?_⟩
  · intro l1 b l2 heq h1 h2
    rw [heq]
    exact runBatches_abort resp l1 b l2 h1 h2
  · intro frs hm hne
    rw [friendsPhase_ok, hm]
    simp [hne]

/-- Environment for the C2 witness: both batches answer 200 with records. -/
def c2RespW : List String → HttpResp (List Player) :=
  fun _ => HttpResp.ok 200 (some [p0])

/-- C2 witness: with every batch responding 200, the batch loop returns the
concatenation of the per-batch records in batch order. -/
theorem c2_witness :
    runBatches c2RespW (chunk100 ["76561198000000001", "76561198000000002"]) =
      ((chunk100 ["76561198000000001", "76561198000000002"]).map
        (fun b => batchExtract (c2RespW b))).flatten :=
  (c2_batching _ c2RespW).2.2.1 (by decide)

/-- A friend profile record used by the C2 counterexample. -/
def pRU : Player := ⟨some "Boris", none, some "RU", none⟩

/-- 101 friend identifiers, hence two batches (100 and 1 identifiers). -/
def ids101 : List String := (List.range 101).map (fun i => toString i)

/-- The friend-list entries carrying those 101 identifiers. -/
def friends101 : List FriendRel :=
  (List.range 101).map (fun i => ⟨some (toString i)⟩)

/-- Batch responses: the first (full, 100-id) batch suffers a transport
error, the second would answer 200 with one record. -/
def c2CexResp : List String → HttpResp (List Player) :=
  fun b => if b.length = 100 then HttpResp.exn else HttpResp.ok 200 (some [pRU])

/-- C2 counterexample: the claim says a failed batch does not prevent the
remaining batches from being fetched and appended, but when the first batch
raises a transport error the loop aborts: the second batch's 200 response
with one record never reaches the result, which is empty. -/
theorem c2_counterexample :
    friendsPhase (HttpResp.ok 200 (some friends101)) c2CexResp = [] ∧
      (chunk100 ids101).map c2CexResp =
        [HttpResp.exn, HttpResp.ok 200 (some [pRU])] :=
  ⟨by decide, by decide⟩

theorem filter_orderedInsert_key (key : α → Nat) (k : Nat) (a : α)
    (ha : key a = k) :
    ∀ l : List α,
      (List.orderedInsert (byKeyDesc key) a l).filter
          (fun x => decide (key x = k)) =
        a :: l.filter (fun x => decide (key x = k)) := by
  intro l
  induction l with
  | nil => simp [List.orderedInsert, ha]
  | cons b l ih =>
    by_cases hr : byKeyDesc key a b
    · simp [List.orderedInsert, hr, ha]
    · have hbk : key b ≠ k := by
        unfold byKeyDesc at hr
        omega
      simp [List.orderedInsert, hr, hbk, ih]

theorem filter_orderedInsert_ne (key : α → Nat) (k : Nat) (a : α)
    (ha : key a ≠ k) :
    ∀ l : List α,
      (List.orderedInsert (byKeyDesc key) a l).filter
          (fun x => decide (key x = k)) =
        l.filter (fun x => decide (key x = k)) := by
  intro l
  induction l with
  | nil => simp [List.orderedInsert, ha]
  | cons b l ih =>
    by_cases hr : byKeyDesc key a b
    · simp [List.orderedInsert, hr, ha]
    · simp [List.orderedInsert, hr, List.filter_cons, ih]

/-- Stability of the embedded sort: the subsequence of elements with any
fixed key value is untouched, i.e. ties keep their original order. -/
theorem filter_insertionSort_key (key : α → Nat) (k : Nat) :
    ∀ l : List α,
      (List.insertionSort (byKeyDesc key) l).filter
          (fun x => decide (key x = k)) =
        l.filter (fun x => decide (key x = k)) := by
  intro l
  induction l with
  | nil => rfl
  | cons a l ih =>
    simp only [List.insertionSort]
    by_cases ha : key a = k
    · rw [filter_orderedInsert_key key k a ha, ih]
      simp [ha]
    · rw [filter_orderedInsert_ne key k a ha, ih]
      simp [ha]

/-- Fifteen games with pairwise distinct playtimes, in scrambled order. -/
def games15 : List Game :=
  [⟨"a", some 30⟩, ⟨"b", some 150⟩, ⟨"c", some 90⟩, ⟨"d", some 60⟩,
   ⟨"e", some 120⟩, ⟨"f", some 15⟩, ⟨"g", some 135⟩, ⟨"h", some 75⟩,
   ⟨"i", some 45⟩, ⟨"j", some 105⟩, ⟨"k", some 300⟩, ⟨"l", some 5⟩,
   ⟨"m", some 200⟩, ⟨"n", some 100⟩, ⟨"o", some 1⟩]

/-- C4: on a successful games fetch the retained sample is the first 10
elements of the stable descending sort by playtime — a permutation of the
input, descending on the key, ties keeping original order — and on 15 games
with distinct playtimes it is exactly the 10 highest in descending order. -/
theorem c4_game_sample :
    (∀ gs : List Game,
      gamesPhase (HttpResp.ok 200 (some gs)) =
        (List.insertionSort (byKeyDesc gameKey) gs).take 10 ∧
      (List.insertionSort (byKeyDesc gameKey) gs).Perm gs ∧
      List.Sorted (byKeyDesc gameKey) (List.insertionSort (byKeyDesc gameKey) gs) ∧
      List.Sorted (byKeyDesc gameKey) (gamesPhase (HttpResp.ok 200 (some gs))) ∧
      (∀ k, (List.insertionSort (byKeyDesc gameKey) gs).filter
            (fun g => decide (gameKey g = k)) =
          gs.filter (fun g => decide (gameKey g = k)))) ∧
    gamesPhase (HttpResp.ok 200 (some games15)) =
      [⟨"k", some 300⟩, ⟨"m", some 200⟩, ⟨"b", some 150⟩, ⟨"g", some 135⟩,
       ⟨"e", some 120⟩, ⟨"j", some 105⟩, ⟨"n", some 100⟩, ⟨"c", some 90⟩,
       ⟨"h", some 75⟩, ⟨"d", some 60⟩] := by
  constructor
  · intro gs
    refine ⟨rfl, List.perm_insertionSort _ _, List.sorted_insertionSort _ _,
      ?_, fun k => filter_insertionSort_key _ _ _⟩
    exact List.Pairwise.sublist (List.take_sublist 10 _)
      (List.sorted_insertionSort _ _)
  · decide

/-- Python truthiness defaulting `profile.get(field) or sentinel`: both an
absent key and an empty string fall back to the sentinel. -/
def orDefault (v : Option String) (d : String) : String :=
  match v with
  | none => d
  | some s => if s = "" then d else s

/-- Two-digit zero padding, as `strftime` does for `%m` and `%d`. -/
def pad2 (n : Nat) : String :=
  if n < 10 then "0" ++ toString n else toString n

/-- Embedding of `datetime.datetime.utcfromtimestamp(t).strftime("%m/%d/%Y")`
for a nonnegative Unix timestamp, via the standard civil-from-days
conversion of the proleptic Gregorian calendar. -/
def fmtDate (t : Nat) : String :=
  let z := t / 86400 + 719468
  let era := z / 146097
  let doe := z % 146097
  let yoe := (doe - doe / 1460 + doe / 36524 - doe / 146096) / 365
  let y := yoe + era * 400
  let doy := doe - (365 * yoe + yoe / 4 - yoe / 100)
  let mp := (5 * doy + 2) / 153
  let d := doy - (153 * mp + 2) / 5 + 1
  let m := if mp < 10 then mp + 3 else mp - 9
  let yr := if m ≤ 2 then y + 1 else y
  pad2 m ++ "/" ++ pad2 d ++ "/" ++ toString yr

/-- The `created_str` computation: `... if created else "Unknown"` is a
truthiness test, so both an absent key and the epoch value 0 render as
`"Unknown"`. -/
def createdStr (profile : Player) : String :=
  match profile.timecreated with
  | none => "Unknown"
  | some t => if t = 0 then "Unknown" else fmtDate t

/-- Country of one friend record: `f.get("loccountrycode", "??")` — a
key-absence default (an empty string present in the record is kept). -/
def friendCountry (f : Player) : String := f.loccountrycode.getD "??"

/-- Increments the count of the entry keyed `c`, leaving others alone. -/
def incIfC (c : String) (p : String × Nat) : String × Nat :=
  if p.1 = c then (p.1, p.2 + 1) else p

/-- One step of the tally `friend_countries[c] = friend_countries.get(c, 0) + 1`
on an insertion-ordered association list, the model of a Python dict. -/
def addTally (m : List (String × Nat)) (c : String) : List (String × Nat) :=
  if ∃ p ∈ m, p.1 = c then m.map (incIfC c)
  else m ++ [(c, 1)]

/-- The friend-country tally, keys in order of first encounter. -/
def friend_countries (friends : List Player) : List (String × Nat) :=
  friends.foldl (fun m f => addTally m (friendCountry f)) []

/-- Sort key of `sorted(..., key=lambda x: -x[1])`: the count. -/
def pairCount (p : String × Nat) : Nat := p.2

/-- The five most frequent country/count pairs, by count descending, ties in
tally (encounter) order — Python's stable `sorted` then `[:5]`. -/
def top_countries_list (friends : List Player) : List (String × Nat) :=
  (List.insertionSort (byKeyDesc pairCount) (friend_countries friends)).take 5

/-- The `top_countries` string: `"<count> from <code>"` joined by `", "`. -/
def topCountriesStr (friends : List Player) : String :=
  String.intercalate ", "
    ((top_countries_list friends).map (fun p => toString p.2 ++ " from " ++ p.1))

/-- Total sampled playtime in minutes: `sum(g.get("playtime_forever", 0))`. -/
def totalMinutes (games : List Game) : Nat :=
  (games.map (fun g => g.playtime_forever.getD 0)).sum

/-- Rounds `num/den` to the nearest integer, ties to even. -/
def roundHalfEvenTenths (num den : Nat) : Nat :=
  let q := num / den
  let r := num % den
  if 2 * r > den then q + 1
  else if 2 * r < den then q
  else if q % 2 = 1 then q + 1 else q

/-- Renders `minutes / 60` hours with one decimal place, as the format spec
`:.1f` does on the exact rational value (round half to even; CPython formats
the nearest binary double instead, which agrees except when the exact value
itself is a representation-boundary tie). -/
def fmtHours1 (minutes : Nat) : String :=
  let tenths := roundHalfEvenTenths (minutes * 10) 60
  toString (tenths / 10) ++ "." ++ toString (tenths % 10)

/-- Embedding of `simplify_steam_profile` (lines 121-154): the fixed-format
digest rendered from a profile aggregate. -/
def simplify_steam_profile (data : ProfileAggregate) : String :=
  let profile := data.profile
  let friends := data.friends
  let games := data.owned_games_sample
  let name := orDefault profile.realname "Not specified"
  let persona := orDefault profile.personaname "No nickname"
  let country := orDefault profile.loccountrycode "Unknown"
  let created_str := createdStr profile
  let top_countries := topCountriesStr friends
  let game_titles := String.intercalate ", " ((games.take 10).map Game.name)
  "Steam User:\n- Display name: " ++ persona ++
    "\n- Real name: " ++ name ++
    "\n- Country: " ++ country ++
    "\n- Account created: " ++ created_str ++
    "\n\nFriends:\n- Total friends: " ++ toString friends.length ++
    "\n- Top friend countries: " ++ top_countries ++
    "\n\nGaming activity:\n- Sample of owned games: " ++ toString games.length ++
    "\n- Total playtime (in sample): ~" ++ fmtHours1 (totalMinutes games) ++
    " hours\n- Example games: " ++ game_titles

/-- Total count carried by the entries of key `c` in an association list. -/
def sumFor (m : List (String × Nat)) (c : String) : Nat :=
  ((m.filter (fun p => decide (p.1 = c))).map Prod.snd).sum

/-- A well-formed tally has pairwise distinct keys, as a Python dict does. -/
def goodTally (m : List (String × Nat)) : Prop := (m.map Prod.fst).Nodup

theorem sumFor_cons (p : String × Nat) (m : List (String × Nat)) (c : String) :
    sumFor (p :: m) c = (if p.1 = c then p.2 else 0) + sumFor m c := by
  by_cases h : p.1 = c <;> simp [sumFor, List.filter_cons, h]

theorem map_incIfC_of_noKey (c : String) :
    ∀ m : List (String × Nat), (∀ p ∈ m, p.1 ≠ c) → m.map (incIfC c) = m := by
  intro m
  induction m with
  | nil => intro _; rfl
  | cons p m ih =>
    intro h
    have hp := h p (List.mem_cons_self _ _)
    simp [incIfC, hp, ih (fun q hq => h q (List.mem_cons_of_mem _ hq))]

theorem map_fst_incIfC (c : String) :
    ∀ m : List (String × Nat), (m.map (incIfC c)).map Prod.fst = m.map Prod.fst := by
  intro m
  induction m with
  | nil => rfl
  | cons p m ih => by_cases hp : p.1 = c <;> simp [incIfC, hp, ih]

theorem goodTally_addTally (m : List (String × Nat)) (c : String)
    (hm : goodTally m) : goodTally (addTally m c) := by
  unfold addTally
  by_cases hex : ∃ p ∈ m, p.1 = c
  · rw [if_pos hex]
    unfold goodTally
    rw [map_fst_incIfC]
    exact hm
  · rw [if_neg hex]
    unfold goodTally at *
    rw [List.map_append, List.nodup_append]
    refine ⟨hm, by simp, ?_⟩
    intro a ha hb
    simp only [List.map_cons, List.map_nil, List.mem_singleton] at hb
    subst hb
    obtain ⟨p, hp, hpc⟩ := List.mem_map.mp ha
    exact hex ⟨p, hp, hpc⟩

theorem addTally_cons_ne (p : String × Nat) (m : List (String × Nat))
    (c : String) (hp : p.1 ≠ c) :
    addTally (p :: m) c = p :: addTally m c := by
  unfold addTally
  by_cases hex : ∃ q ∈ m, q.1 = c
  · have hex2 : ∃ q ∈ p :: m, q.1 = c := by
      obtain ⟨q, hq, hqc⟩ := hex
      exact ⟨q, List.mem_cons_of_mem _ hq, hqc⟩
    rw [if_pos hex2, if_pos hex]
    simp [incIfC, hp]
  · have hex2 : ¬ ∃ q ∈ p :: m, q.1 = c := by
      rintro ⟨q, hq, hqc⟩
      rcases List.mem_cons.mp hq with h | h
      · subst h; exact hp hqc
      · exact hex ⟨q, h, hqc⟩
    rw [if_neg hex2, if_neg hex]
    rfl

theorem addTally_cons_eq (p : String × Nat) (m : List (String × Nat))
    (c : String) (hp : p.1 = c) (hno : ∀ q ∈ m, q.1 ≠ c) :
    addTally (p :: m) c = (p.1, p.2 + 1) :: m := by
  unfold addTally
  rw [if_pos ⟨p, List.mem_cons_self _ _, hp⟩]
  simp only [List.map_cons, incIfC, if_pos hp]
  rw [map_incIfC_of_noKey c m hno]

theorem sumFor_addTally (c cq : String) :
    ∀ m : List (String × Nat), goodTally m →
      sumFor (addTally m c) cq = sumFor m cq + (if cq = c then 1 else 0) := by
  intro m
  induction m with
  | nil =>
    intro _
    by_cases hc : cq = c
    · subst hc; simp [addTally, sumFor_cons, sumFor]
    · have hc2 : c ≠ cq := fun h => hc h.symm
      simp [addTally, sumFor_cons, sumFor, hc, hc2]
  | cons p m ih =>
    intro hm
    have hm2 : goodTally m := by
      unfold goodTally at hm ⊢
      simp only [List.map_cons, List.nodup_cons] at hm
      exact hm.2
    have hnp : p.1 ∉ m.map Prod.fst := by
      unfold goodTally at hm
      simp only [List.map_cons, List.nodup_cons] at hm
      exact hm.1
    by_cases hp : p.1 = c
    · have hno : ∀ q ∈ m, q.1 ≠ c := by
        intro q hq hqc
        exact hnp (by rw [hp, ← hqc]; exact List.mem_map_of_mem Prod.fst hq)
      rw [addTally_cons_eq p m c hp hno, sumFor_cons, sumFor_cons]
      by_cases hc : cq = c
      · subst hc
        rw [if_pos hp, if_pos hp]
        simp
        omega
      · have hp1 : ¬ (p.1 = cq) := fun h => hc (by rw [← h, hp])
        rw [if_neg hp1, if_neg hp1, if_neg hc]
        omega
    · rw [addTally_cons_ne p m c hp, sumFor_cons, sumFor_cons, ih hm2]
      omega

theorem friend_countries_spec (fs : List Player) :
    ∀ m : List (String × Nat), goodTally m →
      goodTally (fs.foldl (fun m f => addTally m (friendCountry f)) m) ∧
      ∀ c, sumFor (fs.foldl (fun m f => addTally m (friendCountry f)) m) c =
        sumFor m c + (fs.map friendCountry).count c := by
  induction fs with
  | nil =>
    intro m hm
    exact ⟨hm, fun c => by simp⟩
  | cons f fs ih =>
    intro m hm
    simp only [List.foldl_cons]
    obtain ⟨hg, hs⟩ := ih (addTally m (friendCountry f))
      (goodTally_addTally _ _ hm)
    refine ⟨hg, fun c => ?_⟩
    rw [hs c, sumFor_addTally _ _ m hm]
    simp only [List.map_cons, List.count_cons]
    by_cases hc : friendCountry f = c
    · simp [hc]
      omega
    · have hc2 : ¬ (c = friendCountry f) := fun h => hc h.symm
      simp [hc, hc2]

/-- A friend located in the US (country code present). -/
def pUS : Player := ⟨none, none, some "US", none⟩

/-- A friend located in France (country code present). -/
def pFR : Player := ⟨none, none, some "FR", none⟩

/-- Twelve friends whose country tally is US: 5, RU: 5, FR: 2, with US
encountered before RU. -/
def exampleFriends : List Player :=
  [pUS, pUS, pRU, pFR, pUS, pRU, pRU, pUS, pFR, pRU, pUS, pRU]

/-- C5: the tally maps each country code (with `??` substituted for an
absent code) to its multiplicity among the friends, with pairwise distinct
keys in encounter order; the top-5 selection is sorted by count descending
and is stable (entries of any fixed count keep the tally's order); and on
the example tally US: 5, RU: 5, FR: 2 the digest fragment lists exactly
those three entries, US before RU. -/
theorem c5_country_ranking :
    (∀ (fs : List Player) (c : String),
      sumFor (friend_countries fs) c = (fs.map friendCountry).count c) ∧
    (∀ fs : List Player, goodTally (friend_countries fs)) ∧
    (∀ fs : List Player,
      List.Sorted (byKeyDesc pairCount) (top_countries_list fs)) ∧
    (∀ (fs : List Player) (k : Nat),
      (List.insertionSort (byKeyDesc pairCount) (friend_countries fs)).filter
          (fun p => decide (pairCount p = k)) =
        (friend_countries fs).filter (fun p => decide (pairCount p = k))) ∧
    (∀ f : Player, f.loccountrycode = none → friendCountry f = "??") ∧
    topCountriesStr exampleFriends = "5 from US, 5 from RU, 2 from FR" := by
  have hbase : goodTally ([] : List (String × Nat)) := by
    simp [goodTally]
  refine ⟨?_, ?_, ?_, fun fs k => filter_insertionSort_key _ _ _,
    ?_, by decide⟩
  · intro fs c
    have h := (friend_countries_spec fs [] hbase).2 c
    simpa [sumFor] using h
  · intro fs
    exact (friend_countries_spec fs [] hbase).1
  · intro fs
    exact List.Pairwise.sublist (List.take_sublist 5 _)
      (List.sorted_insertionSort _ _)
  · intro f hf
    simp [friendCountry, hf]

/-- C5 witness: a friend record with no country code lands in the `??`
bucket, and the tally of a single such friend counts one for `??`. -/
theorem c5_witness :
    friendCountry ⟨none, none, none, none⟩ = "??" ∧
      sumFor (friend_countries [⟨none, none, none, none⟩]) "??" = 1 := by
  refine ⟨c5_country_ranking.2.2.2.2.1 ⟨none, none, none, none⟩ rfl, ?_⟩
  have h := c5_country_ranking.1 [⟨none, none, none, none⟩] "??"
  simpa using h

/-- C9: a missing (absent or empty) real name renders as the fixed sentinel
"Not specified" and a missing display name as the fixed sentinel
"No nickname"; substituting the sentinel for the missing field leaves the
digest unchanged. -/
theorem c9_name_sentinels (a : ProfileAggregate) :
    (a.profile.realname = none ∨ a.profile.realname = some "" →
      orDefault a.profile.realname "Not specified" = "Not specified" ∧
      simplify_steam_profile a = simplify_steam_profile
        { a with profile := { a.profile with realname := some "Not specified" } }) ∧
    (a.profile.personaname = none ∨ a.profile.personaname = some "" →
      orDefault a.profile.personaname "No nickname" = "No nickname" ∧
      simplify_steam_profile a = simplify_steam_profile
        { a with profile := { a.profile with personaname := some "No nickname" } }) := by
  constructor
  · intro h
    have hv : orDefault a.profile.realname "Not specified" = "Not specified" := by
      rcases h with h | h <;> simp [orDefault, h]
    refine ⟨hv, ?_⟩
    simp only [simplify_steam_profile]
    rw [hv]
    rfl
  · intro h
    have hv : orDefault a.profile.personaname "No nickname" = "No nickname" := by
      rcases h with h | h <;> simp [orDefault, h]
    refine ⟨hv, ?_⟩
    simp only [simplify_steam_profile]
    rw [hv]
    rfl

/-- An aggregate whose profile has an empty display name, no real name and a
zero creation timestamp. -/
def aggMissing : ProfileAggregate :=
  { profile := ⟨some "", none, some "US", some 0⟩, friends := [],
    owned_games_sample := [] }

/-- C9 witness: on a concrete profile with absent real name the sentinel is
substituted and the digest is unchanged by making it explicit. -/
theorem c9_witness :
    (aggMissing.profile.realname = none ∨ aggMissing.profile.realname = some "") ∧
      orDefault aggMissing.profile.realname "Not specified" = "Not specified" ∧
      simplify_steam_profile aggMissing = simplify_steam_profile
        { aggMissing with
          profile := { aggMissing.profile with realname := some "Not specified" } } :=
  ⟨Or.inl rfl, (c9_name_sentinels aggMissing).1 (Or.inl rfl)⟩

/-- C10: a present creation timestamp equal to 0 (the Unix epoch) renders as
"Unknown" rather than as a calendar date — the truthiness test `if created`
cannot distinguish it from an absent key — so the digest equals that of the
same aggregate with the timestamp absent. -/
theorem c10_epoch_is_unknown (a : ProfileAggregate)
    (h : a.profile.timecreated = some 0) :
    createdStr a.profile = "Unknown" ∧
      simplify_steam_profile a = simplify_steam_profile
        { a with profile := { a.profile with timecreated := none } } := by
  have hv : createdStr a.profile = "Unknown" := by
    simp [createdStr, h]
  refine ⟨hv, ?_⟩
  simp only [simplify_steam_profile]
  rw [hv]
  rfl

/-- C10 witness: the concrete aggregate with `timecreated = 0` renders the
account-creation field as "Unknown". -/
theorem c10_witness :
    createdStr aggMissing.profile = "Unknown" ∧
      simplify_steam_profile aggMissing = simplify_steam_profile
        { aggMissing with
          profile := { aggMissing.profile with timecreated := none } } :=
  c10_epoch_is_unknown aggMissing rfl

/-- Joins strings with a separator; used by the claim-side digest format. -/
def joinSep (s : String) : List String → String
  | [] => ""
  | [a] => a
  | a :: b :: rest => a ++ s ++ joinSep s (b :: rest)

/-- One labeled section of the digest, claim-side: a header line followed by
labeled field lines joined by newlines. -/
def sectionBlock (header : String) (lines : List String) : String :=
  header ++ ":\n" ++ joinSep "\n" lines

/-- The digest format as the (amended) claim states it: three labeled
sections in fixed order — "Steam User" (display name, real name, country,
creation date), "Friends" (total count, top-5 country breakdown), "Gaming
activity" (sample size, total hours, example titles) — separated by blank
lines, with the literal headers and field labels. -/
def specDigest (a : ProfileAggregate) : String :=
  joinSep "\n\n"
    [ sectionBlock "Steam User"
        [ "- Display name: " ++ orDefault a.profile.personaname "No nickname"
        , "- Real name: " ++ orDefault a.profile.realname "Not specified"
        , "- Country: " ++ orDefault a.profile.loccountrycode "Unknown"
        , "- Account created: " ++ createdStr a.profile ]
    , sectionBlock "Friends"
        [ "- Total friends: " ++ toString a.friends.length
        , "- Top friend countries: " ++ topCountriesStr a.friends ]
    , sectionBlock "Gaming activity"
        [ "- Sample of owned games: " ++ toString a.owned_games_sample.length
        , "- Total playtime (in sample): ~" ++
            fmtHours1 (totalMinutes a.owned_games_sample) ++ " hours"
        , "- Example games: " ++
            String.intercalate ", " ((a.owned_games_sample.take 10).map Game.name) ] ]

/-- C3 (amended): for every aggregate the digest is exactly the fixed
three-section format, headers and field labels literal and in order. -/
theorem c3_digest_format (a : ProfileAggregate) :
    simplify_steam_profile a = specDigest a := by
  simp only [simplify_steam_profile, specDigest, sectionBlock, joinSep]
  rw [show ("Steam User:\n- Display name: " : String) =
        "Steam User" ++ ":\n" ++ "- Display name: " from by decide,
    show ("\n- Real name: " : String) = "\n" ++ "- Real name: " from by decide,
    show ("\n- Country: " : String) = "\n" ++ "- Country: " from by decide,
    show ("\n- Account created: " : String) =
      "\n" ++ "- Account created: " from by decide,
    show ("\n\nFriends:\n- Total friends: " : String) =
      "\n\n" ++ ("Friends" ++ ":\n" ++ "- Total friends: ") from by decide,
    show ("\n- Top friend countries: " : String) =
      "\n" ++ "- Top friend countries: " from by decide,
    show ("\n\nGaming activity:\n- Sample of owned games: " : String) =
      "\n\n" ++ ("Gaming activity" ++ ":\n" ++ "- Sample of owned games: ")
      from by decide,
    show ("\n- Total playtime (in sample): ~" : String) =
      "\n" ++ "- Total playtime (in sample): ~" from by decide,
    show (" hours\n- Example games: " : String) =
      " hours" ++ ("\n" ++ "- Example games: ") from by decide]
  simp only [String.append_assoc]

/-- C3 witness: a concrete digest rendered end to end equals the claim-side
format applied to the same aggregate. -/
theorem c3_witness :
    simplify_steam_profile aggMissing = specDigest aggMissing :=
  c3_digest_format aggMissing

/-- Counts non-overlapping occurrences of a blank-line separator. -/
def countBlankSeps : List Char → Nat
  | '\n' :: '\n' :: rest => countBlankSeps rest + 1
  | _ :: rest => countBlankSeps rest
  | [] => 0

/-- A concrete aggregate whose field values contain no newlines. -/
def aggC3 : ProfileAggregate :=
  { profile := ⟨some "Alice", some "Al", some "US", none⟩,
    friends := [pUS], owned_games_sample := [⟨"Dota 2", some 90⟩] }

/-- C3 counterexample: the digest of a concrete aggregate contains exactly
two blank-line separators — three labeled sections, not the four the claim
announces (it then enumerates only three). -/
theorem c3_counterexample :
    countBlankSeps (simplify_steam_profile aggC3).data = 2 ∧
      (2 : Nat) + 1 ≠ 4 :=
  ⟨by decide, by decide⟩

/-- Parsed body of the generation response,
`resp.json()["message"]["content"]`: `none` models an absent key, on which
the indexing raises inside the guarded block. -/
structure LlmBody where
  content : Option String
deriving DecidableEq

/-- Environment of `llm_message`: the response to the one generation call. -/
structure LlmEnv where
  resp : HttpResp LlmBody

/-- The fixed apology sentence substituted when generation fails. -/
def apologyText : String := "Sorry, I'm having trouble thinking right now. 😕"

/-- Embedding of `llm_message` (lines 157-185): the whole generation call is
guarded by `try/except`, every failure replacing the answer with the fixed
apology; the result is always the answer, a blank line, then the digest
verbatim. -/
def llm_message (env : LlmEnv) (message : String) : String :=
  let answer :=
    match env.resp with
    | .exn => apologyText
    | .ok st body =>
      if httpError st then apologyText
      else
        match body with
        | none => apologyText
        | some b =>
          match b.content with
          | none => apologyText
          | some s => s
  answer ++ "\n\n" ++ message

/-- Failure conditions of the generation call, from the amended claim:
transport failure (including timeout), 4xx/5xx status, or malformed
response body. -/
def llmFails : HttpResp LlmBody → Bool
  | .exn => true
  | .ok st body =>
    if httpError st then true
    else
      match body with
      | none => true
      | some b => b.content.isNone

/-- C8 (amended): the commentary operation never fails outward: its result
is always some commentary text followed by a blank line and the digest
verbatim; on any transport failure, timeout, 4xx/5xx response or malformed
body the commentary is the fixed apology, and on a completed non-error
response with a parsed content field it is that content. -/
theorem c8_commentary_fallback (env : LlmEnv) (message : String) :
    (∃ answer, llm_message env message = answer ++ "\n\n" ++ message) ∧
    (llmFails env.resp = true →
      llm_message env message = apologyText ++ "\n\n" ++ message) ∧
    (∀ st s, env.resp = HttpResp.ok st (some ⟨some s⟩) → ¬ httpError st →
      llm_message env message = s ++ "\n\n" ++ message) := by
  refine ⟨⟨_, rfl⟩, ?_, ?_⟩
  · intro hf
    unfold llm_message
    cases hv : env.resp with
    | exn => simp
    | ok st body =>
      rw [hv] at hf
      simp only [llmFails] at hf
      by_cases hst : httpError st
      · simp [hst]
      · simp only [if_neg hst] at hf
        cases body with
        | none => simp [hst]
        | some b =>
          cases hb : b.content with
          | none => simp [hst, hb]
          | some s => simp [hb, Option.isNone] at hf
  · intro st s heq hst
    unfold llm_message
    rw [heq]
    simp [hst]

/-- C8 witness: under a transport failure the result is the apology followed
by the blank-line separator and the digest verbatim. -/
theorem c8_witness :
    llmFails HttpResp.exn = true ∧
      llm_message ⟨HttpResp.exn⟩ "digest" = apologyText ++ "\n\n" ++ "digest" :=
  ⟨rfl, (c8_commentary_fallback ⟨HttpResp.exn⟩ "digest").2.1 rfl⟩

/-- C8 counterexample: the claim says any non-2xx response substitutes the
apology, but `raise_for_status` does not raise on 302, so a 302 response
whose body parses yields the generated text, not the apology. -/
theorem c8_counterexample :
    llm_message ⟨HttpResp.ok 302 (some ⟨some "lol"⟩)⟩ "digest" =
        "lol" ++ "\n\n" ++ "digest" ∧
      "lol" ≠ apologyText :=
  ⟨rfl, by decide⟩

end SteamBot
